import Mathlib

/-!
Shallow embedding of the achievement-computation and state module of the
CalixOlympics API server (`server.js`).

Modelling conventions:
* JavaScript objects keyed by date strings (`diet`, `activity`) become
  association lists `List (String × List _)`; JS objects cannot hold a key
  twice, but none of the theorems below depend on key uniqueness unless a
  hypothesis says so.
* JS numbers are modelled as exact rationals `ℚ` (the claims under study do
  not concern floating-point rounding); `Number(x) || 0` coercion of a
  malformed field is outside the model — entry fields are already numbers.
* MongoDB documents become an `Option Record`; an `updateOne`/upsert becomes
  an explicit state transformation.  The `updatedAt` timestamp is not
  modelled: it never appears in a response and never influences control flow.
* External collaborators (tweetnacl signature verification, the Metaplex NFT
  mint) are oracles passed in as parameters.
-/

/-- One food-log entry.  Only the numeric fields the engine reads are kept. -/
structure FoodEntry where
  protein : ℚ
  calories : ℚ
deriving Repr, DecidableEq

/-- One activity-log entry.  Only the numeric field the engine reads is kept. -/
structure ActivityEntry where
  duration : ℚ
deriving Repr, DecidableEq

/-- The `goals` object: each field optional (`goals?.x ?? default`). -/
structure Goals where
  calorieGoal : Option ℚ
  proteinGoal : Option ℚ
  activityGoal : Option ℚ
deriving Repr, DecidableEq

/-- One catalog entry of the static `ACHIEVEMENTS` array. -/
structure Achievement where
  id : String
  name : String
  description : String
deriving Repr, DecidableEq

/-- The static achievement catalog (`ACHIEVEMENTS` in `server.js`). -/
def ACHIEVEMENTS : List Achievement :=
  [ ⟨"first_food", "First Bite", "Log your first food entry"⟩,
    ⟨"first_activity", "First Move", "Log your first activity"⟩,
    ⟨"streak_3", "3-Day Streak", "Log food or activity 3 days in a row"⟩,
    ⟨"streak_7", "Week Warrior", "Log food or activity 7 days in a row"⟩,
    ⟨"ten_activities", "Active Ten", "Log 10 activity sessions"⟩,
    ⟨"protein_goal_5", "Protein Pro", "Hit your protein goal 5 days"⟩,
    ⟨"calorie_goal_5", "Calorie Champion", "Hit your calorie goal 5 days"⟩,
    ⟨"activity_goal_5", "Movement Master", "Hit your activity goal 5 days"⟩ ]

/-- JS property access `m[d]` with the `|| []` / `?.` fallback used throughout. -/
def lookupD {α : Type} (m : List (String × List α)) (d : String) : List α :=
  (m.lookup d).getD []

/-- Helper for `jsSetDedup`: keep elements not seen before, in order. -/
def jsSetDedupAux (seen : List String) : List String → List String
  | [] => []
  | a :: l => if a ∈ seen then jsSetDedupAux seen l
              else a :: jsSetDedupAux (seen ++ [a]) l

/-- First-occurrence deduplication, the behaviour of `new Set([...])` /
`[...new Set(l)]` in JavaScript. -/
def jsSetDedup (l : List String) : List String :=
  jsSetDedupAux [] l

/-- Lexicographic comparison of character sequences by code point, the
default `Array.sort()` string comparison (code points and UTF-16 units agree
on the BMP characters of date keys). -/
def charListLe : List Char → List Char → Bool
  | [], _ => true
  | _ :: _, [] => false
  | a :: as, b :: bs =>
    if a.toNat < b.toNat then true
    else if b.toNat < a.toNat then false
    else charListLe as bs

/-- String comparison used for date sorting. -/
def strLe (s t : String) : Bool :=
  charListLe s.data t.data

/-- Insert into a sorted list of strings (ascending, as `Array.sort()` with
default lexicographic comparison on these date keys). -/
def sortedInsert (s : String) : List String → List String
  | [] => [s]
  | t :: ts => if strLe s t then s :: t :: ts else t :: sortedInsert s ts

/-- Sort a list of date strings ascending (`Array.from(dates).sort()`). -/
def sortDates (l : List String) : List String :=
  l.foldr sortedInsert []

/-- Source `getOrderedDates(diet, activity)`: sorted union of the KEYS of the two
mappings (a key is included even when its entry list is empty). -/
def getOrderedDates {α β : Type} (diet : List (String × List α))
    (activity : List (String × List β)) : List String :=
  sortDates (jsSetDedup (diet.map Prod.fst ++ activity.map Prod.fst))

/-- Does date `d` carry at least one food or activity entry?
(`(diet[d]?.length || 0) > 0 || (activity[d]?.length || 0) > 0`). -/
def hasEntriesOn (diet : List (String × List FoodEntry))
    (activity : List (String × List ActivityEntry)) (d : String) : Bool :=
  !(lookupD diet d).isEmpty || !(lookupD activity d).isEmpty

/-- The backwards walk of the streak loop: the input list is the sorted date
list REVERSED (most recent first); count while a date has entries, `break`
at the first date that has none. -/
def streakLoop (hasE : String → Bool) : List String → Nat
  | [] => 0
  | d :: rest => if hasE d then streakLoop hasE rest + 1 else 0

/-- The `streak` value computed inside `computeAchievementsEarned`. -/
def streakVal (diet : List (String × List FoodEntry))
    (activity : List (String × List ActivityEntry)) : Nat :=
  streakLoop (hasEntriesOn diet activity) (getOrderedDates diet activity).reverse

/-- Sum of the `protein` fields of a date's entries. -/
def sumProtein (entries : List FoodEntry) : ℚ :=
  (entries.map FoodEntry.protein).sum

/-- Sum of the `calories` fields of a date's entries. -/
def sumCalories (entries : List FoodEntry) : ℚ :=
  (entries.map FoodEntry.calories).sum

/-- Sum of the `duration` fields of a date's activity entries. -/
def sumDuration (entries : List ActivityEntry) : ℚ :=
  (entries.map ActivityEntry.duration).sum

/-- Source `proteinDays`: over the diet keys, count dates whose summed protein
reaches the goal. -/
def proteinDaysCount (diet : List (String × List FoodEntry)) (proteinGoal : ℚ) : Nat :=
  (diet.map Prod.fst).countP (fun d => proteinGoal ≤ sumProtein (lookupD diet d))

/-- Source `calorieDays`: over the diet keys, count dates whose summed calories lie
in `[0.9 × calorieGoal, 1.1 × calorieGoal]` inclusive. -/
def calorieDaysCount (diet : List (String × List FoodEntry)) (calorieGoal : ℚ) : Nat :=
  (diet.map Prod.fst).countP (fun d =>
    calorieGoal * (9 / 10) ≤ sumCalories (lookupD diet d) &&
    sumCalories (lookupD diet d) ≤ calorieGoal * (11 / 10))

/-- Source `activityMinutesDays`: over the activity keys, count dates whose summed
duration reaches the goal. -/
def activityDaysCount (activity : List (String × List ActivityEntry))
    (activityGoal : ℚ) : Nat :=
  (activity.map Prod.fst).countP (fun d => activityGoal ≤ sumDuration (lookupD activity d))

/-- Total number of food entries across all diet keys. -/
def totalFoodEntries (diet : List (String × List FoodEntry)) : Nat :=
  ((diet.map Prod.fst).map (fun d => (lookupD diet d).length)).sum

/-- Total number of activity sessions across all activity keys. -/
def totalActivitySessions (activity : List (String × List ActivityEntry)) : Nat :=
  ((activity.map Prod.fst).map (fun d => (lookupD activity d).length)).sum

/-- Source `computeAchievementsEarned(diet, activity, goals)` from `server.js`:
pushes IDs in source order, then deduplicates via `[...new Set(earned)]`. -/
def computeAchievementsEarned (diet : List (String × List FoodEntry))
    (activity : List (String × List ActivityEntry)) (goals : Option Goals) :
    List String :=
  let calorieGoal := (goals.bind Goals.calorieGoal).getD 2000
  let proteinGoal := (goals.bind Goals.proteinGoal).getD 50
  let activityGoal := (goals.bind Goals.activityGoal).getD 30
  let earned :=
    (if 0 < totalFoodEntries diet then ["first_food"] else []) ++
    (if 0 < totalActivitySessions activity then ["first_activity"] else []) ++
    (if 10 ≤ totalActivitySessions activity then ["ten_activities"] else []) ++
    (if 3 ≤ streakVal diet activity then ["streak_3"] else []) ++
    (if 7 ≤ streakVal diet activity then ["streak_7"] else []) ++
    (if 5 ≤ proteinDaysCount diet proteinGoal then ["protein_goal_5"] else []) ++
    (if 5 ≤ calorieDaysCount diet calorieGoal then ["calorie_goal_5"] else []) ++
    (if 5 ≤ activityDaysCount activity activityGoal then ["activity_goal_5"] else [])
  jsSetDedup earned

/-- A persisted MongoDB `appdata` document for one anonymous identity.
`Option` fields model fields that may be absent from the stored document. -/
structure Record where
  diet : List (String × List FoodEntry)
  activity : List (String × List ActivityEntry)
  goals : Option Goals
  goalStory : String
  walletAddress : Option String
  achievementsEarned : Option (List String)
  achievementsMinted : Option (List String)
deriving Repr, DecidableEq

/-- A document freshly created by an upsert that sets no other fields. -/
def emptyRecord : Record :=
  ⟨[], [], none, "", none, none, none⟩

/-- The field set written by the reconciliation `updateOne` (besides the
unmodelled `updatedAt`). -/
structure WriteSet where
  achievementsEarned : List String
  achievementsMinted : List String
deriving Repr, DecidableEq

/-- The JSON body answered by `GET /api/data`. -/
structure DataResponse where
  diet : List (String × List FoodEntry)
  activity : List (String × List ActivityEntry)
  goals : Option Goals
  goalStory : String
  walletAddress : Option String
  achievementsEarned : List String
  achievementsMinted : List String
  achievementsMeta : List Achievement
deriving Repr, DecidableEq

/-- The `GET /api/data` handler body (after the `db` guard): load the
document, recompute `earned`, prune `minted`, decide whether to persist, and
answer.  Returns the response together with the optional write issued. -/
def getData (doc : Option Record) : DataResponse × Option WriteSet :=
  let diet := (doc.map Record.diet).getD []
  let activity := (doc.map Record.activity).getD []
  let goals := doc.bind Record.goals
  let goalStory := (doc.map Record.goalStory).getD ""
  let walletAddress := doc.bind Record.walletAddress
  let storedMinted := (doc.bind Record.achievementsMinted).getD []
  let earned := computeAchievementsEarned diet activity goals
  let minted := storedMinted.filter (fun id => id ∈ earned)
  let write :=
    if minted.length ≠ storedMinted.length ∨ ∃ id ∈ storedMinted, id ∉ earned then
      some (⟨earned, minted⟩ : WriteSet)
    else if doc.isSome ∧
        ((doc.bind Record.achievementsEarned).isNone ∨
         (doc.bind Record.achievementsMinted).isNone) then
      some (⟨earned, minted⟩ : WriteSet)
    else none
  (⟨diet, activity, goals, goalStory, walletAddress, earned, minted, ACHIEVEMENTS⟩,
   write)

/-- Effect of the reconciliation `updateOne(... {$set: ...} ... {upsert:true})`
on the stored document. -/
def applyWrite (doc : Option Record) (w : Option WriteSet) : Option Record :=
  match w with
  | none => doc
  | some ws =>
    some { doc.getD emptyRecord with
             achievementsEarned := some ws.achievementsEarned,
             achievementsMinted := some ws.achievementsMinted }

/-- Outcome of `POST /api/mint-achievement` as seen by the caller. -/
inductive MintOutcome where
  | missingId
  | walletNotLinked
  | notEarned
  | alreadyMinted
  | unknownAchievement
  | mintingNotConfigured
  | mintingUnavailable
  | minted (txSignature : String)
  | mintFailed (message : String)
deriving Repr, DecidableEq

/-- Result of the mint endpoint: caller-visible outcome, stored document
after the request, and how many times the external mint collaborator ran. -/
structure MintResult where
  outcome : MintOutcome
  doc : Option Record
  mintCalls : Nat
deriving Repr, DecidableEq

/-- The earned set used by the mint handler:
`doc?.achievementsEarned || computeAchievementsEarned(...)` (a stored empty
array is truthy in JS and is kept as is). -/
def mintEarned (doc : Option Record) : List String :=
  match doc.bind Record.achievementsEarned with
  | some l => l
  | none =>
    computeAchievementsEarned ((doc.map Record.diet).getD [])
      ((doc.map Record.activity).getD []) (doc.bind Record.goals)

/-- The minted set used by the mint handler: `doc?.achievementsMinted || []`. -/
def mintMinted (doc : Option Record) : List String :=
  (doc.bind Record.achievementsMinted).getD []

/-- Effect of `$addToSet` on the stored `achievementsMinted` array. -/
def addToSet (l : List String) (id : String) : List String :=
  if id ∈ l then l else l ++ [id]

/-- The `POST /api/mint-achievement` handler body (after the `db` guard).
`keypairConfigured` models `SOLANA_MINT_KEYPAIR` being set and
`handlerAvailable` models `getMintNftHandler()` returning a function; the
external mint collaborator is the oracle `mintNft`, whose single invocation
either returns a transaction signature or throws. -/
def mintAchievement (doc : Option Record) (achievementId : String)
    (keypairConfigured handlerAvailable : Bool)
    (mintNft : Except String String) : MintResult :=
  if achievementId = "" then ⟨.missingId, doc, 0⟩
  else
    let earned := mintEarned doc
    let minted := mintMinted doc
    match doc.bind Record.walletAddress with
    | none => ⟨.walletNotLinked, doc, 0⟩
    | some _ =>
      if achievementId ∉ earned then ⟨.notEarned, doc, 0⟩
      else if achievementId ∈ minted then ⟨.alreadyMinted, doc, 0⟩
      else if ∀ a ∈ ACHIEVEMENTS, a.id ≠ achievementId then
        ⟨.unknownAchievement, doc, 0⟩
      else if !keypairConfigured then ⟨.mintingNotConfigured, doc, 0⟩
      else if !handlerAvailable then ⟨.mintingUnavailable, doc, 0⟩
      else
        match mintNft with
        | .ok tx =>
          ⟨.minted tx,
           doc.map (fun r =>
             { r with achievementsMinted := some (addToSet (mintMinted doc) achievementId) }),
           1⟩
        | .error e => ⟨.mintFailed e, doc, 1⟩

/-- Outcome of `POST /api/link-wallet` as seen by the caller. -/
inductive LinkOutcome where
  | missingFields
  | invalidSignatureLength
  | invalidSignature
  | linked (walletAddress : String)
deriving Repr, DecidableEq

/-- A link-wallet request.  `sigBytes` is `Buffer.from(signature, "base64")`
and `pkBytes` is `new PublicKey(publicKey).toBytes()`; both decodings are
external-library steps represented by their resulting byte sequences. -/
structure LinkRequest where
  publicKey : String
  message : String
  signature : String
  sigBytes : List Nat
  pkBytes : List Nat
deriving Repr, DecidableEq

/-- The `POST /api/link-wallet` handler body (after the `db` guard).  The
detached-verification primitive `nacl.sign.detached.verify` is the oracle
`verify` over the UTF-8 message, the signature bytes and the public-key
bytes.  Returns the outcome and the stored document after the request. -/
def linkWallet (verify : String → List Nat → List Nat → Bool)
    (req : LinkRequest) (doc : Option Record) : LinkOutcome × Option Record :=
  if req.publicKey = "" ∨ req.message = "" ∨ req.signature = "" then
    (.missingFields, doc)
  else if req.sigBytes.length ≠ 64 then
    (.invalidSignatureLength, doc)
  else if !verify req.message req.sigBytes req.pkBytes then
    (.invalidSignature, doc)
  else
    (.linked req.publicKey,
     some { doc.getD emptyRecord with walletAddress := some req.publicKey })

lemma mem_jsSetDedupAux {x : String} {seen l : List String} :
    x ∈ jsSetDedupAux seen l ↔ x ∈ l ∧ x ∉ seen := by
  induction l generalizing seen with
  | nil => simp [jsSetDedupAux]
  | cons a l ih =>
    simp only [jsSetDedupAux]
    split
    · rename_i ha
      rw [ih, List.mem_cons]
      constructor
      · rintro ⟨h1, h2⟩
        exact ⟨Or.inr h1, h2⟩
      · rintro ⟨rfl | h1, h2⟩
        · exact absurd ha h2
        · exact ⟨h1, h2⟩
    · rename_i ha
      rw [List.mem_cons, List.mem_cons, ih]
      constructor
      · rintro (rfl | ⟨h1, h2⟩)
        · exact ⟨Or.inl rfl, ha⟩
        · exact ⟨Or.inr h1, fun hx => h2 (List.mem_append.mpr (Or.inl hx))⟩
      · rintro ⟨rfl | h1, h2⟩
        · exact Or.inl rfl
        · by_cases hxa : x = a
          · exact Or.inl hxa
          · refine Or.inr ⟨h1, fun hx => ?_⟩
            rcases List.mem_append.mp hx with hx | hx
            · exact h2 hx
            · exact hxa (List.mem_singleton.mp hx)

lemma mem_jsSetDedup {x : String} {l : List String} :
    x ∈ jsSetDedup l ↔ x ∈ l := by
  simp [jsSetDedup, mem_jsSetDedupAux]

lemma jsSetDedupAux_nodup (seen l : List String) :
    (jsSetDedupAux seen l).Nodup := by
  induction l generalizing seen with
  | nil => simp [jsSetDedupAux]
  | cons a l ih =>
    simp only [jsSetDedupAux]
    split
    · exact ih seen
    · refine List.nodup_cons.mpr ⟨fun hmem => ?_, ih (seen ++ [a])⟩
      exact (mem_jsSetDedupAux.mp hmem).2 (by simp)

lemma jsSetDedup_nodup (l : List String) : (jsSetDedup l).Nodup :=
  jsSetDedupAux_nodup [] l

lemma streakLoop_eq_takeWhile (hasE : String → Bool) (l : List String) :
    streakLoop hasE l = (l.takeWhile hasE).length := by
  induction l with
  | nil => rfl
  | cons d rest ih =>
    simp only [streakLoop, List.takeWhile]
    cases h : hasE d <;> simp [h, ih]

lemma mem_ite_singleton {c : Prop} [Decidable c] {x y : String} :
    (x ∈ if c then [y] else []) ↔ c ∧ x = y := by
  split <;> simp_all

/-- Default-resolved protein goal of a `goals` value. -/
def proteinGoalOf (goals : Option Goals) : ℚ :=
  (goals.bind Goals.proteinGoal).getD 50

/-- Default-resolved calorie goal of a `goals` value. -/
def calorieGoalOf (goals : Option Goals) : ℚ :=
  (goals.bind Goals.calorieGoal).getD 2000

/-- Default-resolved activity goal of a `goals` value. -/
def activityGoalOf (goals : Option Goals) : ℚ :=
  (goals.bind Goals.activityGoal).getD 30

lemma mem_compute_iff {x : String} {diet : List (String × List FoodEntry)}
    {activity : List (String × List ActivityEntry)} {goals : Option Goals} :
    x ∈ computeAchievementsEarned diet activity goals ↔
      (0 < totalFoodEntries diet ∧ x = "first_food") ∨
      (0 < totalActivitySessions activity ∧ x = "first_activity") ∨
      (10 ≤ totalActivitySessions activity ∧ x = "ten_activities") ∨
      (3 ≤ streakVal diet activity ∧ x = "streak_3") ∨
      (7 ≤ streakVal diet activity ∧ x = "streak_7") ∨
      (5 ≤ proteinDaysCount diet (proteinGoalOf goals) ∧ x = "protein_goal_5") ∨
      (5 ≤ calorieDaysCount diet (calorieGoalOf goals) ∧ x = "calorie_goal_5") ∨
      (5 ≤ activityDaysCount activity (activityGoalOf goals) ∧ x = "activity_goal_5") := by
  simp only [computeAchievementsEarned, proteinGoalOf, calorieGoalOf, activityGoalOf,
    mem_jsSetDedup, List.mem_append, mem_ite_singleton]
  simp only [or_assoc]

lemma mem_streak3_iff {diet : List (String × List FoodEntry)}
    {activity : List (String × List ActivityEntry)} {goals : Option Goals} :
    "streak_3" ∈ computeAchievementsEarned diet activity goals ↔
      3 ≤ streakVal diet activity := by
  rw [mem_compute_iff]; simp

lemma mem_streak7_iff {diet : List (String × List FoodEntry)}
    {activity : List (String × List ActivityEntry)} {goals : Option Goals} :
    "streak_7" ∈ computeAchievementsEarned diet activity goals ↔
      7 ≤ streakVal diet activity := by
  rw [mem_compute_iff]; simp

lemma mem_protein5_iff {diet : List (String × List FoodEntry)}
    {activity : List (String × List ActivityEntry)} {goals : Option Goals} :
    "protein_goal_5" ∈ computeAchievementsEarned diet activity goals ↔
      5 ≤ proteinDaysCount diet (proteinGoalOf goals) := by
  rw [mem_compute_iff]; simp

lemma mem_calorie5_iff {diet : List (String × List FoodEntry)}
    {activity : List (String × List ActivityEntry)} {goals : Option Goals} :
    "calorie_goal_5" ∈ computeAchievementsEarned diet activity goals ↔
      5 ≤ calorieDaysCount diet (calorieGoalOf goals) := by
  rw [mem_compute_iff]; simp

lemma mem_activity5_iff {diet : List (String × List FoodEntry)}
    {activity : List (String × List ActivityEntry)} {goals : Option Goals} :
    "activity_goal_5" ∈ computeAchievementsEarned diet activity goals ↔
      5 ≤ activityDaysCount activity (activityGoalOf goals) := by
  rw [mem_compute_iff]; simp

lemma mem_first_food_iff {diet : List (String × List FoodEntry)}
    {activity : List (String × List ActivityEntry)} {goals : Option Goals} :
    "first_food" ∈ computeAchievementsEarned diet activity goals ↔
      0 < totalFoodEntries diet := by
  rw [mem_compute_iff]; simp


/-- Evaluation helper: the earned set for one day with one food entry of 60 g
protein and 500 kcal, under default goals. -/
lemma computeEval_oneFood :
    computeAchievementsEarned [("2024-01-01", [⟨60, 500⟩])] [] none =
      ["first_food"] := by
  norm_num [computeAchievementsEarned, totalFoodEntries, totalActivitySessions,
    streakVal, getOrderedDates, sortDates, jsSetDedup, jsSetDedupAux, sortedInsert,
    strLe, charListLe, streakLoop, hasEntriesOn, proteinDaysCount, calorieDaysCount,
    activityDaysCount, sumProtein, sumCalories, sumDuration, lookupD,
    List.countP, List.countP.go, List.lookup]

/-- C1: for every read of the data endpoint, the `achievementsMinted` list in
the response is a subset of the `achievementsEarned` list in the same
response, for every stored record and stored `achievementsMinted` content. -/
theorem C1_minted_subset_earned (doc : Option Record) (id : String)
    (h : id ∈ (getData doc).1.achievementsMinted) :
    id ∈ (getData doc).1.achievementsEarned := by
  simp only [getData, List.mem_filter, decide_eq_true_eq] at h
  simpa only [getData] using h.2

/-- Witness for C1 at a concrete stored record with a minted achievement. -/
theorem C1_witness :
    "first_food" ∈
      (getData (some ⟨[("2024-01-01", [⟨60, 500⟩])], [], none, "",
        none, some ["first_food"], some ["first_food"]⟩)).1.achievementsMinted ∧
    "first_food" ∈
      (getData (some ⟨[("2024-01-01", [⟨60, 500⟩])], [], none, "",
        none, some ["first_food"], some ["first_food"]⟩)).1.achievementsEarned := by
  have h : "first_food" ∈
      (getData (some ⟨[("2024-01-01", [⟨60, 500⟩])], [], none, "",
        none, some ["first_food"], some ["first_food"]⟩)).1.achievementsMinted := by
    simp [getData, computeEval_oneFood]
  exact ⟨h, C1_minted_subset_earned _ _ h⟩

/-- C9: for every input to compute, `streak_7` earned implies `streak_3`
earned. -/
theorem C9_streak7_implies_streak3 (diet : List (String × List FoodEntry))
    (activity : List (String × List ActivityEntry)) (goals : Option Goals)
    (h : "streak_7" ∈ computeAchievementsEarned diet activity goals) :
    "streak_3" ∈ computeAchievementsEarned diet activity goals := by
  rw [mem_streak3_iff]
  exact le_trans (by norm_num) (mem_streak7_iff.mp h)

/-- Witness for C9: seven consecutive logged days earn both streaks. -/
theorem C9_witness :
    "streak_3" ∈ computeAchievementsEarned
      [("2024-01-01", [⟨1, 1⟩]), ("2024-01-02", [⟨1, 1⟩]), ("2024-01-03", [⟨1, 1⟩]),
       ("2024-01-04", [⟨1, 1⟩]), ("2024-01-05", [⟨1, 1⟩]), ("2024-01-06", [⟨1, 1⟩]),
       ("2024-01-07", [⟨1, 1⟩])] [] none :=
  C9_streak7_implies_streak3 _ _ _ (mem_streak7_iff.mpr (by decide))

/-- C10: the earned list is duplicate-free and every ID in it names an entry
of the static catalog. -/
theorem C10_earned_ids_in_catalog (diet : List (String × List FoodEntry))
    (activity : List (String × List ActivityEntry)) (goals : Option Goals) :
    (computeAchievementsEarned diet activity goals).Nodup ∧
    ∀ x ∈ computeAchievementsEarned diet activity goals,
      ∃ a ∈ ACHIEVEMENTS, a.id = x := by
  refine ⟨jsSetDedup_nodup _, fun x hx => ?_⟩
  rw [mem_compute_iff] at hx
  rcases hx with ⟨_, rfl⟩ | ⟨_, rfl⟩ | ⟨_, rfl⟩ | ⟨_, rfl⟩ | ⟨_, rfl⟩ |
    ⟨_, rfl⟩ | ⟨_, rfl⟩ | ⟨_, rfl⟩ <;> decide

/-- Witness for C10 at a concrete earned ID. -/
theorem C10_witness :
    ∃ a ∈ ACHIEVEMENTS, a.id = "first_food" :=
  (C10_earned_ids_in_catalog [("2024-01-01", [⟨60, 500⟩])] [] none).2
    "first_food" (mem_first_food_iff.mpr (by decide))

/-- The date union as claim C6 words it: a date counts only if either mapping
has at least one entry on it (the code instead unions the raw keys). -/
def specUnionDatesC6 (diet : List (String × List FoodEntry))
    (activity : List (String × List ActivityEntry)) : List String :=
  (getOrderedDates diet activity).filter (hasEntriesOn diet activity)

/-- The streak as claim C6 words it: walk `specUnionDatesC6` from most recent
backwards, counting while a date has entries and breaking at the first that
has none. -/
def specStreakC6 (diet : List (String × List FoodEntry))
    (activity : List (String × List ActivityEntry)) : Nat :=
  streakLoop (hasEntriesOn diet activity) (specUnionDatesC6 diet activity).reverse

/-- A diet whose most recent date key holds an empty entry list. -/
def dietC6 : List (String × List FoodEntry) :=
  [("2024-01-01", [⟨1, 1⟩]), ("2024-01-02", [⟨1, 1⟩]),
   ("2024-01-03", [⟨1, 1⟩]), ("2024-01-04", [])]

/-- Counterexample to C6: on a record whose most recent diet key maps to an
empty list, the code's streak is 0 (the walk hits the empty key and breaks)
while the claim's entry-bearing-union streak is 3; accordingly `streak_3` is
NOT earned although the claim's reading says it is. -/
theorem C6_counterexample :
    streakVal dietC6 [] = 0 ∧ specStreakC6 dietC6 [] = 3 ∧
    "streak_3" ∉ computeAchievementsEarned dietC6 [] none := by
  refine ⟨by decide, by decide, ?_⟩
  rw [mem_streak3_iff]
  decide

/-- C6 as amended: the union is over the raw KEYS of the two mappings (a key
counts even with an empty entry list); the streak is the length of the
maximal tail run of entry-bearing dates of that key union, and `streak_3` /
`streak_7` are earned iff it reaches 3 / 7. -/
theorem C6_amended_streak (diet : List (String × List FoodEntry))
    (activity : List (String × List ActivityEntry)) (goals : Option Goals) :
    streakVal diet activity =
      ((getOrderedDates diet activity).reverse.takeWhile
        (hasEntriesOn diet activity)).length ∧
    ("streak_3" ∈ computeAchievementsEarned diet activity goals ↔
      3 ≤ streakVal diet activity) ∧
    ("streak_7" ∈ computeAchievementsEarned diet activity goals ↔
      7 ≤ streakVal diet activity) :=
  ⟨streakLoop_eq_takeWhile _ _, mem_streak3_iff, mem_streak7_iff⟩

/-- A diet with a single date key holding zero entries. -/
def dietC7 : List (String × List FoodEntry) :=
  [("2024-01-01", [])]

/-- Counterexample to C7: with a stored protein goal of 0 (a legal `goals`
value, persisted verbatim by the write path), a date with zero food entries
IS counted toward `proteinDays` (its sum 0 meets the goal), contradicting
the claim's "a date with zero entries for that mapping is never counted". -/
theorem C7_counterexample :
    proteinGoalOf (some ⟨none, some 0, none⟩) = 0 ∧
    lookupD dietC7 "2024-01-01" = ([] : List FoodEntry) ∧
    proteinDaysCount dietC7 (proteinGoalOf (some ⟨none, some 0, none⟩)) = 1 := by
  refine ⟨rfl, by decide, ?_⟩
  norm_num [proteinGoalOf, proteinDaysCount, sumProtein, lookupD, dietC7,
    List.countP, List.countP.go, List.lookup]

/-- C7 as amended: each count ranges over its own mapping's keys comparing
the per-date sums exactly as claimed, and the three `..._goal_5` IDs are
earned iff their counts reach 5; a date with zero entries is never counted
PROVIDED the protein/activity goal is positive (resp. the calorie goal is
nonzero) — with a zero or negative goal the empty sum 0 can satisfy the
comparison. -/
theorem C7_amended_goal_counts (diet : List (String × List FoodEntry))
    (activity : List (String × List ActivityEntry)) (goals : Option Goals) :
    ("protein_goal_5" ∈ computeAchievementsEarned diet activity goals ↔
      5 ≤ proteinDaysCount diet (proteinGoalOf goals)) ∧
    ("calorie_goal_5" ∈ computeAchievementsEarned diet activity goals ↔
      5 ≤ calorieDaysCount diet (calorieGoalOf goals)) ∧
    ("activity_goal_5" ∈ computeAchievementsEarned diet activity goals ↔
      5 ≤ activityDaysCount activity (activityGoalOf goals)) ∧
    (0 < proteinGoalOf goals → ∀ d : String, lookupD diet d = [] →
      ¬ proteinGoalOf goals ≤ sumProtein (lookupD diet d)) ∧
    (calorieGoalOf goals ≠ 0 → ∀ d : String, lookupD diet d = [] →
      ¬ (calorieGoalOf goals * (9 / 10) ≤ sumCalories (lookupD diet d) ∧
         sumCalories (lookupD diet d) ≤ calorieGoalOf goals * (11 / 10))) ∧
    (0 < activityGoalOf goals → ∀ d : String, lookupD activity d = [] →
      ¬ activityGoalOf goals ≤ sumDuration (lookupD activity d)) := by
  refine ⟨mem_protein5_iff, mem_calorie5_iff, mem_activity5_iff, ?_, ?_, ?_⟩
  · intro hg d hd
    rw [hd]
    simp only [sumProtein, List.map_nil, List.sum_nil, not_le]
    exact hg
  · intro hg d hd
    rw [hd]
    simp only [sumCalories, List.map_nil, List.sum_nil]
    rintro ⟨h1, h2⟩
    exact hg (le_antisymm (by linarith) (by linarith))
  · intro hg d hd
    rw [hd]
    simp only [sumDuration, List.map_nil, List.sum_nil, not_le]
    exact hg

/-- Witness for C7 as amended: under the default goals a date key with no
entries fails the protein comparison and the membership iffs hold at a
concrete input. -/
theorem C7_amended_witness :
    ¬ proteinGoalOf none ≤ sumProtein (lookupD dietC7 "2024-01-01") ∧
    ¬ activityGoalOf none ≤ sumDuration (lookupD ([] : List (String × List ActivityEntry)) "2024-01-01") :=
  ⟨(C7_amended_goal_counts dietC7 [] none).2.2.2.1 (by norm_num [proteinGoalOf])
      "2024-01-01" (by decide),
   (C7_amended_goal_counts dietC7 [] none).2.2.2.2.2 (by norm_num [activityGoalOf])
      "2024-01-01" (by decide)⟩

/-- A record with a linked wallet and a stored earned set `["first_food"]`. -/
def docC2 : Record :=
  ⟨[], [], none, "", some "wallet111", some ["first_food"], some []⟩

/-- Counterexample to C2: for an achievement ID that is neither in the
catalog nor in the earned set, the handler reports `NotEarned` ("Achievement
not earned."), not `UnknownAchievement` — the earned check at line 315 runs
before the catalog lookup at lines 317–318. -/
theorem C2_counterexample :
    (mintAchievement (some docC2) "bogus" true true (.ok "tx")).outcome =
      MintOutcome.notEarned ∧
    MintOutcome.notEarned ≠ MintOutcome.unknownAchievement := by
  exact ⟨by decide, by decide⟩

/-- C2 as amended: the gate checks run in the order wallet linked, earned,
not already minted, catalog membership, mint keypair configured, mint
handler available, the first failure short-circuiting; in particular an ID
neither in the catalog nor earned fails as `NotEarned`. -/
theorem C2_amended_gate_order (doc : Option Record) (id : String)
    (kc ha : Bool) (mintNft : Except String String) (hid : id ≠ "") :
    (doc.bind Record.walletAddress = none →
      mintAchievement doc id kc ha mintNft = ⟨.walletNotLinked, doc, 0⟩) ∧
    (doc.bind Record.walletAddress ≠ none → id ∉ mintEarned doc →
      mintAchievement doc id kc ha mintNft = ⟨.notEarned, doc, 0⟩) ∧
    (doc.bind Record.walletAddress ≠ none → id ∈ mintEarned doc →
      id ∈ mintMinted doc →
      mintAchievement doc id kc ha mintNft = ⟨.alreadyMinted, doc, 0⟩) ∧
    (doc.bind Record.walletAddress ≠ none → id ∈ mintEarned doc →
      id ∉ mintMinted doc → (∀ a ∈ ACHIEVEMENTS, a.id ≠ id) →
      mintAchievement doc id kc ha mintNft = ⟨.unknownAchievement, doc, 0⟩) ∧
    (doc.bind Record.walletAddress ≠ none → id ∈ mintEarned doc →
      id ∉ mintMinted doc → (∃ a ∈ ACHIEVEMENTS, a.id = id) → kc = false →
      mintAchievement doc id kc ha mintNft = ⟨.mintingNotConfigured, doc, 0⟩) ∧
    (doc.bind Record.walletAddress ≠ none → id ∈ mintEarned doc →
      id ∉ mintMinted doc → (∃ a ∈ ACHIEVEMENTS, a.id = id) → kc = true →
      ha = false →
      mintAchievement doc id kc ha mintNft = ⟨.mintingUnavailable, doc, 0⟩) := by
  refine ⟨?_, ?_, ?_, ?_, ?_, ?_⟩
  · intro h1
    simp [mintAchievement, hid, h1]
  · intro h1 h2
    obtain ⟨w, hw⟩ := Option.ne_none_iff_exists'.mp h1
    simp [mintAchievement, hid, hw, h2]
  · intro h1 h2 h3
    obtain ⟨w, hw⟩ := Option.ne_none_iff_exists'.mp h1
    simp [mintAchievement, hid, hw, h2, h3]
  · intro h1 h2 h3 h4
    obtain ⟨w, hw⟩ := Option.ne_none_iff_exists'.mp h1
    simp only [mintAchievement, hw]
    rw [if_neg hid, if_neg (not_not_intro h2), if_neg h3, if_pos h4]
  · intro h1 h2 h3 h4 h5
    obtain ⟨w, hw⟩ := Option.ne_none_iff_exists'.mp h1
    have hcat : ¬ ∀ a ∈ ACHIEVEMENTS, a.id ≠ id := by
      rcases h4 with ⟨a, ha, hai⟩
      exact fun hall => hall a ha hai
    simp [mintAchievement, hid, hw, h2, h3, hcat, h5]
  · intro h1 h2 h3 h4 h5 h6
    obtain ⟨w, hw⟩ := Option.ne_none_iff_exists'.mp h1
    have hcat : ¬ ∀ a ∈ ACHIEVEMENTS, a.id ≠ id := by
      rcases h4 with ⟨a, ha, hai⟩
      exact fun hall => hall a ha hai
    simp [mintAchievement, hid, hw, h2, h3, hcat, h5, h6]

/-- Witness for C2 as amended: the no-wallet and not-in-catalog branches at
concrete inputs. -/
theorem C2_amended_witness :
    mintAchievement none "first_food" true true (.ok "tx") =
      ⟨.walletNotLinked, none, 0⟩ ∧
    mintAchievement
      (some ⟨[], [], none, "", some "w", some ["zzz"], some []⟩) "zzz"
      true true (.ok "tx") =
      ⟨.unknownAchievement,
       some ⟨[], [], none, "", some "w", some ["zzz"], some []⟩, 0⟩ :=
  ⟨(C2_amended_gate_order none "first_food" true true (.ok "tx")
      (by decide)).1 rfl,
   (C2_amended_gate_order
      (some ⟨[], [], none, "", some "w", some ["zzz"], some []⟩) "zzz"
      true true (.ok "tx") (by decide)).2.2.2.1
      (by simp) (by decide) (by decide) (by decide)⟩

/-- C4: with all three fields present, a decoded signature whose length is
not 64 bytes is rejected as `InvalidSignatureLength` with no state change —
for EVERY verification oracle, so no verification outcome can influence the
rejection — and a 64-byte signature failing detached verification is
rejected as `InvalidSignature` with no state change. -/
theorem C4_link_wallet_rejections
    (verify : String → List Nat → List Nat → Bool) (req : LinkRequest)
    (doc : Option Record)
    (hp : ¬(req.publicKey = "" ∨ req.message = "" ∨ req.signature = "")) :
    (req.sigBytes.length ≠ 64 →
      linkWallet verify req doc = (.invalidSignatureLength, doc)) ∧
    (req.sigBytes.length = 64 →
      verify req.message req.sigBytes req.pkBytes = false →
      linkWallet verify req doc = (.invalidSignature, doc)) := by
  constructor
  · intro h64
    simp [linkWallet, hp, h64]
  · intro h64 hv
    simp [linkWallet, hp, h64, hv]

/-- Witness for C4: a 63-byte signature is rejected for length, and a
64-byte signature failing verification is rejected as invalid; neither
mutates the (absent) record. -/
theorem C4_witness :
    linkWallet (fun _ _ _ => false)
      ⟨"pubkey", "msg", "sig", List.replicate 63 0, List.replicate 32 0⟩ none =
      (.invalidSignatureLength, none) ∧
    linkWallet (fun _ _ _ => false)
      ⟨"pubkey", "msg", "sig", List.replicate 64 0, List.replicate 32 0⟩ none =
      (.invalidSignature, none) :=
  ⟨(C4_link_wallet_rejections (fun _ _ _ => false)
      ⟨"pubkey", "msg", "sig", List.replicate 63 0, List.replicate 32 0⟩ none
      (by decide)).1 (by decide),
   (C4_link_wallet_rejections (fun _ _ _ => false)
      ⟨"pubkey", "msg", "sig", List.replicate 64 0, List.replicate 32 0⟩ none
      (by decide)).2 (by decide) rfl⟩

/-- C5: when every gate check passes, the external mint collaborator is
invoked exactly once; on success the achievement ID is `$addToSet`-added to
the persisted minted set, and on failure the stored document is unchanged,
the failure is surfaced, and (the single recorded call) no retry occurs. -/
theorem C5_mint_at_most_once (doc : Option Record) (id : String)
    (kc ha : Bool) (mintNft : Except String String) (hid : id ≠ "")
    (hw : doc.bind Record.walletAddress ≠ none) (he : id ∈ mintEarned doc)
    (hm : id ∉ mintMinted doc) (hcat : ∃ a ∈ ACHIEVEMENTS, a.id = id)
    (hkc : kc = true) (hha : ha = true) :
    (mintAchievement doc id kc ha mintNft).mintCalls = 1 ∧
    (∀ tx, mintNft = .ok tx →
      mintAchievement doc id kc ha mintNft =
        ⟨.minted tx,
         doc.map (fun r =>
           { r with achievementsMinted := some (addToSet (mintMinted doc) id) }),
         1⟩) ∧
    (∀ e, mintNft = .error e →
      mintAchievement doc id kc ha mintNft = ⟨.mintFailed e, doc, 1⟩) := by
  obtain ⟨w, hww⟩ := Option.ne_none_iff_exists'.mp hw
  have hcat2 : ¬ ∀ a ∈ ACHIEVEMENTS, a.id ≠ id := by
    rcases hcat with ⟨a, ha2, hai⟩
    exact fun hall => hall a ha2 hai
  subst hkc hha
  have hred : mintAchievement doc id true true mintNft =
      (match mintNft with
       | .ok tx =>
         ⟨.minted tx,
          doc.map (fun r =>
            { r with achievementsMinted := some (addToSet (mintMinted doc) id) }),
          1⟩
       | .error e => ⟨.mintFailed e, doc, 1⟩) := by
    simp only [mintAchievement, hww]
    rw [if_neg hid, if_neg (not_not_intro he), if_neg hm, if_neg hcat2]
    simp
  refine ⟨?_, ?_, ?_⟩
  · rw [hred]
    cases mintNft <;> rfl
  · intro tx htx
    rw [hred, htx]
  · intro e he2
    rw [hred, he2]

/-- Witness for C5: a concrete passing request mints once on success and
leaves the record unchanged on collaborator failure. -/
theorem C5_witness :
    (mintAchievement (some docC2) "first_food" true true (.ok "tx")).mintCalls
      = 1 ∧
    mintAchievement (some docC2) "first_food" true true (.error "boom") =
      ⟨.mintFailed "boom", some docC2, 1⟩ :=
  ⟨(C5_mint_at_most_once (some docC2) "first_food" true true (.ok "tx")
      (by decide) (by decide) (by decide) (by decide) (by decide) rfl rfl).1,
   (C5_mint_at_most_once (some docC2) "first_food" true true (.error "boom")
      (by decide) (by decide) (by decide) (by decide) (by decide) rfl rfl).2.2
      "boom" rfl⟩

/-- The earned set freshly computed by the read path for a stored document. -/
def freshEarned (doc : Option Record) : List String :=
  computeAchievementsEarned ((doc.map Record.diet).getD [])
    ((doc.map Record.activity).getD []) (doc.bind Record.goals)

/-- The stored minted list of a document (`doc?.achievementsMinted || []`). -/
def storedMintedOf (doc : Option Record) : List String :=
  (doc.bind Record.achievementsMinted).getD []

/-- The pruned minted list: stored minted restricted to the fresh earned set. -/
def prunedMintedOf (doc : Option Record) : List String :=
  (storedMintedOf doc).filter (fun id => id ∈ freshEarned doc)

/-- The reconciliation write condition as claim C3 words it: a write happens
exactly when pruning removed an entry, or the persisted record previously
had NO recorded `achievementsEarned`/`achievementsMinted` fields AT ALL
(both fields absent, first-time backfill).  This is the claim-side
definition for the refinement comparison with `getData`. -/
def specWriteCondC3 (doc : Option Record) : Prop :=
  (∃ id ∈ storedMintedOf doc, id ∉ freshEarned doc) ∨
  (doc.isSome = true ∧ (doc.bind Record.achievementsEarned).isNone = true ∧
   (doc.bind Record.achievementsMinted).isNone = true)

/-- A stored record holding `achievementsMinted` but no `achievementsEarned`
field — the state a mint leaves behind before any subsequent read. -/
def docC3 : Record :=
  ⟨[("2024-01-01", [⟨60, 500⟩])], [], none, "", some "w", none,
   some ["first_food"]⟩

/-- Counterexample to C3: on `docC3` nothing is pruned and one of the two
fields IS recorded, yet the code issues a write (its backfill branch fires
when EITHER field is absent), while the claim's write condition is false. -/
theorem C3_counterexample :
    ((getData (some docC3)).2).isSome = true ∧ ¬ specWriteCondC3 (some docC3) := by
  constructor
  · simp [getData, docC3, computeEval_oneFood]
  · simp [specWriteCondC3, storedMintedOf, freshEarned, docC3, computeEval_oneFood]

lemma pruned_length_ne_iff (stored earned : List String) :
    (stored.filter (fun id => id ∈ earned)).length ≠ stored.length ↔
      ∃ id ∈ stored, id ∉ earned := by
  constructor
  · intro h
    have hle := List.length_filter_le (fun id => decide (id ∈ earned)) stored
    have hlt : (stored.filter (fun id => id ∈ earned)).length < stored.length :=
      lt_of_le_of_ne hle h
    simpa using List.length_filter_lt_length_iff_exists.mp hlt
  · rintro ⟨id, hid, hnot⟩
    exact Nat.ne_of_lt
      (List.length_filter_lt_length_iff_exists.mpr ⟨id, hid, by simpa⟩)

/-- C3 as amended: the read path returns the fresh earned set and
`prunedMinted = storedMinted ∩ earned`; any write it issues carries exactly
`{achievementsEarned: earned, achievementsMinted: prunedMinted}`; and a
write occurs exactly when pruning removed an entry OR the record exists and
AT LEAST ONE of the two fields was previously absent (the code's backfill
branch fires on either field missing, not only when both are). -/
theorem C3_amended_reconcile (doc : Option Record) :
    (getData doc).1.achievementsEarned = freshEarned doc ∧
    (getData doc).1.achievementsMinted = prunedMintedOf doc ∧
    ((getData doc).2 = none ∨
     (getData doc).2 = some ⟨freshEarned doc, prunedMintedOf doc⟩) ∧
    ((getData doc).2 ≠ none ↔
      ((∃ id ∈ storedMintedOf doc, id ∉ freshEarned doc) ∨
       (doc.isSome = true ∧
        ((doc.bind Record.achievementsEarned).isNone = true ∨
         (doc.bind Record.achievementsMinted).isNone = true)))) := by
  simp only [getData, freshEarned, prunedMintedOf, storedMintedOf]
  split_ifs with h1 h2
  · refine ⟨trivial, trivial, Or.inr rfl, ?_⟩
    have hex : ∃ id ∈ (doc.bind Record.achievementsMinted).getD [],
        id ∉ computeAchievementsEarned ((doc.map Record.diet).getD [])
          ((doc.map Record.activity).getD []) (doc.bind Record.goals) := by
      rcases h1 with h1 | h1
      · exact (pruned_length_ne_iff _ _).mp h1
      · exact h1
    simp [hex]
  · refine ⟨trivial, trivial, Or.inr rfl, ?_⟩
    constructor
    · intro _
      exact Or.inr h2
    · intro _
      exact Option.some_ne_none _
  · refine ⟨trivial, trivial, Or.inl rfl, ?_⟩
    rw [not_or] at h1
    constructor
    · intro h
      exact absurd rfl h
    · rintro (hex | hb)
      · exact absurd hex h1.2
      · exact absurd hb h2

lemma filter_mem_idem (l e : List String) :
    (l.filter (fun id => id ∈ e)).filter (fun id => id ∈ e) =
      l.filter (fun id => id ∈ e) := by
  apply List.filter_eq_self.mpr
  intro a ha
  exact (List.mem_filter.mp ha).2

lemma getData_write_shape (doc : Option Record) :
    (getData doc).2 = none ∨
    (getData doc).2 = some ⟨freshEarned doc, prunedMintedOf doc⟩ := by
  simp only [getData, freshEarned, prunedMintedOf, storedMintedOf]
  split_ifs <;> simp

lemma getData_stable (r : Record) :
    getData (some { r with
        achievementsEarned := some (freshEarned (some r)),
        achievementsMinted := some (prunedMintedOf (some r)) }) =
      ((getData (some r)).1, none) := by
  have hpp : (prunedMintedOf (some r)).filter
      (fun id => id ∈ freshEarned (some r)) = prunedMintedOf (some r) := by
    simp only [prunedMintedOf]
    exact filter_mem_idem _ _
  have hnex : ¬ ∃ id ∈ prunedMintedOf (some r), id ∉ freshEarned (some r) := by
    rintro ⟨id, hid, hnot⟩
    simp only [prunedMintedOf] at hid
    exact hnot (by simpa using List.of_mem_filter hid)
  simp only [getData, freshEarned, prunedMintedOf, storedMintedOf] at hpp hnex ⊢
  simp only [Option.map_some', Option.some_bind, Option.getD_some] at hpp hnex ⊢
  rw [if_neg, if_neg]
  · rw [hpp]
  · simp
  · rw [not_or]
    refine ⟨?_, ?_⟩
    · rw [hpp]
      simp
    · exact hnex

/-- C8: invoking the read-reconcile path a second time, after applying
whatever write the first invocation issued and with no other intervening
write, returns the identical response and issues no write — at most one of
the two invocations writes. -/
theorem C8_read_reconcile_idempotent (doc : Option Record) :
    (getData (applyWrite doc (getData doc).2)).1 = (getData doc).1 ∧
    (getData (applyWrite doc (getData doc).2)).2 = none := by
  rcases hsh : (getData doc).2 with _ | ws
  · exact ⟨rfl, hsh⟩
  · have hval := getData_write_shape doc
    rw [hsh] at hval
    rcases hval with hval | hval
    · exact absurd hval (by simp)
    · have hws : ws = ⟨freshEarned doc, prunedMintedOf doc⟩ :=
        Option.some.inj hval
      subst hws
      cases doc with
      | none => exact absurd hsh (by decide)
      | some r =>
        have happ : applyWrite (some r)
            (some ⟨freshEarned (some r), prunedMintedOf (some r)⟩) =
            some { r with
              achievementsEarned := some (freshEarned (some r)),
              achievementsMinted := some (prunedMintedOf (some r)) } := rfl
        rw [happ, getData_stable]
        exact ⟨rfl, rfl⟩
